import Mathlib

/-!
Verification of the channel identity-resolution and merge engine of the
AJPs-custom-epg repository, against its two Python sources:

* `custom/scripts/merge_custom_channels.py` (namespace `Merge` below)
* `custom/scripts/archived/step2_enrich_with_preferred_channels.py`
  (namespace `Step2` below)

The embedding works on `String` via its underlying `List Char`.  All inputs in
this pipeline are ASCII CSV/XML cells, so the Python `str` operations
(`lower`, `upper`, `strip`, `split`) and the `re` word-boundary semantics
(`\b`, with word characters `[a-zA-Z0-9_]`) are modelled on ASCII.
-/

set_option maxRecDepth 4000

/-- Word character in the sense of Python `re`'s `\b` (ASCII: letter, digit
or underscore). -/
def isWordChar (c : Char) : Bool :=
  c.isAlpha || c.isDigit || c = '_'

/-- Python `str.lower()` (ASCII). -/
def strLower (s : String) : String :=
  String.mk (s.data.map Char.toLower)

/-- Python `str.upper()` (ASCII). -/
def strUpper (s : String) : String :=
  String.mk (s.data.map Char.toUpper)

/-- Strip leading and trailing whitespace from a character list. -/
def trimChars (l : List Char) : List Char :=
  ((l.dropWhile Char.isWhitespace).reverse.dropWhile Char.isWhitespace).reverse

/-- Python `str.strip()`. -/
def strTrim (s : String) : String :=
  String.mk (trimChars s.data)

/-- Split a character list on a separator character; `Python str.split(sep)`
semantics (the empty list yields one empty field). -/
def splitOnChar (sep : Char) : List Char → List (List Char)
  | [] => [[]]
  | c :: rest =>
    let r := splitOnChar sep rest
    if c = sep then [] :: r
    else
      match r with
      | [] => [[c]]
      | h :: t => (c :: h) :: t

/-- Python `s.split(";")`. -/
def strSplitSemi (s : String) : List String :=
  (splitOnChar ';' s.data).map String.mk

/-- True if the position just after a removed token is a `\b` boundary, given
the remaining suffix: end of string or a non-word character. -/
def boundaryAfter : List Char → Bool
  | [] => true
  | d :: _ => !isWordChar d

/-- One pass of Python `re.sub` with pattern `\b<tag>\b` and replacement
`repl`, for a token `tag` made only of word characters, scanning a
character list left to right.  `prevW` records whether the character just
before the current position is a word character (`false` at the start of the
string); the fuel argument starts at the length of the list and bounds the
recursion.  After a replacement, scanning resumes after the matched token,
whose last character is a word character, hence `true` is passed on. -/
def subWordAux (tag repl : List Char) : Bool → List Char → Nat → List Char
  | _, s, 0 => s
  | _, [], _ => []
  | prevW, c :: rest, Nat.succ fuel =>
    if !prevW && tag.isPrefixOf (c :: rest)
        && boundaryAfter (List.drop tag.length (c :: rest)) then
      repl ++ subWordAux tag repl true (List.drop (tag.length - 1) rest) fuel
    else
      c :: subWordAux tag repl (isWordChar c) rest fuel

/-- Python `re.sub` of a whole-word token (pattern `\b<tag>\b`) by a
replacement string. -/
def reSubWord (tag repl s : String) : String :=
  String.mk (subWordAux tag.data repl.data false s.data s.data.length)

/-- Python `re.sub(r"\+1\b", "", s)` from the Step 2 normalizer: the pattern
has no leading boundary, so `+1` is removed wherever it is followed by a
word boundary. -/
def subPlusOneAux : List Char → Nat → List Char
  | s, 0 => s
  | [], _ => []
  | '+' :: '1' :: rest, Nat.succ fuel =>
    if boundaryAfter rest then subPlusOneAux rest fuel
    else '+' :: subPlusOneAux ('1' :: rest) fuel
  | c :: rest, Nat.succ fuel => c :: subPlusOneAux rest fuel

/-- Python `re.sub(r"\s+", " ", s)`: collapse every whitespace run to a single
space.  The flag records whether the previous character was whitespace. -/
def collapseWsAux : Bool → List Char → List Char
  | _, [] => []
  | inWs, c :: rest =>
    if c.isWhitespace then
      if inWs then collapseWsAux true rest
      else ' ' :: collapseWsAux true rest
    else c :: collapseWsAux false rest

namespace Merge

/-- `QUALITY_TAGS` from merge_custom_channels.py. -/
def QUALITY_TAGS : List String := ["hd", "uhd", "4k", "fhd", "sd"]

/-- `PROVIDER_TAGS` from merge_custom_channels.py. -/
def PROVIDER_TAGS : List String :=
  ["directv", "pluto", "plex", "freeview", "sky", "virgin", "tvguide",
   "tvinsider", "tv24", "streaming", "epgshare"]

/-- `TIMESHIFT_TAGS` from merge_custom_channels.py.  The list is defined in
the source but `normalize_name` never applies it. -/
def TIMESHIFT_TAGS : List String := ["+1", "+2", "timeshift", "east", "west"]

/-- The punctuation class removed by `normalize_name`
(`[\(\)\[\]\-_/&,+.']`); `Char.ofNat 39` is the apostrophe. -/
def punctChars : List Char :=
  ['(', ')', '[', ']', '-', '_', '/', '&', ',', '+', '.', Char.ofNat 39]

/-- `normalize_name` from merge_custom_channels.py (the loose merge-keying
variant): lower-case, remove provider tags then quality tags as whole words,
map each punctuation-class character to a space, collapse whitespace runs, and
strip.  The timeshift tags are never removed. -/
def normalize_name (name : String) : String :=
  if name = "" then ""
  else
    let n0 := strLower name
    let n1 := PROVIDER_TAGS.foldl (fun s p => reSubWord p " " s) n0
    let n2 := QUALITY_TAGS.foldl (fun s q => reSubWord q " " s) n1
    let n3 := String.mk (n2.data.map (fun c => if punctChars.contains c then ' ' else c))
    strTrim (String.mk (collapseWsAux false n3.data))

end Merge

namespace Step2

/-- `normalize_name` from step2_enrich_with_preferred_channels.py (the strict
preferred-index keying variant): strip, lower-case, remove `hd` as a whole
word, remove `+1` when followed by a word boundary, then delete every
character outside `a-z0-9`.  A non-string cell maps to the empty string in
the source; the typed embedding takes a `String`. -/
def normalize_name (name : String) : String :=
  let s0 := strLower (strTrim name)
  let s1 := reSubWord "hd" "" s0
  let s2 := String.mk (subPlusOneAux s1.data s1.data.length)
  String.mk (s2.data.filter (fun c => c.isLower || c.isDigit))

end Step2

namespace Merge

/-- One channel candidate as assembled by `build_candidates` in
merge_custom_channels.py: the four string cells read by `merge_candidates`. -/
structure Candidate where
  site : String
  xmltv_id : String
  name : String
  source : String
deriving DecidableEq, Repr

/-- One row of merge_review_duplicates.csv, appended by `merge_candidates`
for every key collision. -/
structure DupeRecord where
  key : String
  kept_name : String
  dropped_name : String
  kept_source : String
  dropped_source : String
  kept_xmltv_id : String
  dropped_xmltv_id : String
deriving DecidableEq, Repr

/-- The identity key chosen at line 187 of merge_custom_channels.py:
`key = xmltv_id if xmltv_id else norm`. -/
def candidateKey (c : Candidate) : String :=
  if c.xmltv_id ≠ "" then c.xmltv_id else normalize_name c.name

/-- Lookup in an insertion-ordered association list (Python `dict` access /
membership). -/
def lookupAssocList {α β : Type} [DecidableEq α] : List (α × β) → α → Option β
  | [], _ => none
  | (k, v) :: rest, key => if k = key then some v else lookupAssocList rest key

/-- In-place update of the value stored at a key, keeping the insertion
position (Python `d[key] = v` for a present key). -/
def updateAssoc {α β : Type} [DecidableEq α] : List (α × β) → α → β → List (α × β)
  | [], _, _ => []
  | (k, v) :: rest, key, c => if k = key then (k, c) :: rest else (k, v) :: updateAssoc rest key c

/-- The tie-break of lines 192-199 of merge_custom_channels.py: the new
candidate `c` displaces the provisional winner `prev` when `prev` lacks an
xmltv_id and `c` has one, or else when `prev` is not from
custom.channels.xml and `c` is.  (`winner is c` holds exactly when one of
the two rules fired, the candidates being distinct objects.) -/
def wonByNew (prev c : Candidate) : Bool :=
  if prev.xmltv_id = "" ∧ c.xmltv_id ≠ "" then true
  else if prev.source ≠ "custom.channels.xml" ∧ c.source = "custom.channels.xml" then true
  else false

/-- The body of the `for c in candidates` loop of `merge_candidates`
(lines 172-214), acting on the state (merged dict, dupes list, unmatched
list).  A candidate whose loose-normalized name is empty goes to `unmatched`
before any key is computed.  On a key collision the kept fields of the audit
record are read from `merged[key]` after the possible update, so they
describe the winner, while the dropped fields always describe the newly seen
candidate. -/
def mergeStep (st : List (String × Candidate) × List DupeRecord × List Candidate)
    (c : Candidate) : List (String × Candidate) × List DupeRecord × List Candidate :=
  if normalize_name c.name = "" then (st.1, st.2.1, st.2.2 ++ [c])
  else
    match lookupAssocList st.1 (candidateKey c) with
    | none => (st.1 ++ [(candidateKey c, c)], st.2.1, st.2.2)
    | some prev =>
      ((if wonByNew prev c then updateAssoc st.1 (candidateKey c) c else st.1),
       st.2.1 ++ [⟨candidateKey c,
                   (if wonByNew prev c then c else prev).name, c.name,
                   (if wonByNew prev c then c else prev).source, c.source,
                   (if wonByNew prev c then c else prev).xmltv_id, c.xmltv_id⟩],
       st.2.2)

/-- `merge_candidates` from merge_custom_channels.py: fold the loop body over
the ordered candidate list and return `(list(merged.values()), dupes,
unmatched)`. -/
def merge_candidates (candidates : List Candidate) :
    List Candidate × List DupeRecord × List Candidate :=
  let st := candidates.foldl mergeStep ([], [], [])
  (st.1.map Prod.snd, st.2.1, st.2.2)

end Merge

namespace Step2

/-- One row of prefered-scoped-channels.csv as read with `dtype=str,
keep_default_na=False`: each field is the cell when the column is present
(possibly the empty string) and `none` when the column is absent, matching
`row.get(col)`.  `Prefered` and `preferred` are the two recognized spellings
of the preference-marker column. -/
structure PreferredRow where
  id : Option String := none
  name : Option String := none
  alt_names : Option String := none
  network : Option String := none
  owners : Option String := none
  country : Option String := none
  categories : Option String := none
  is_nsfw : Option String := none
  launched : Option String := none
  closed : Option String := none
  replaced_by : Option String := none
  website : Option String := none
  Prefered : Option String := none
  preferred : Option String := none
deriving DecidableEq, Repr

/-- One row of the baseline CSV: the cells read by the enrichment loop, plus
the prior values of the columns the loop writes (those columns are added
empty only when not already present, so a re-run can see earlier values). -/
structure BaselineRow where
  xmltv_id : Option String := none
  display_name : Option String := none
  name : Option String := none
  country : Option String := none
  categories : Option String := none
  preferred_flag : Option String := none
  pref_id : Option String := none
  pref_name : Option String := none
  pref_alt_names : Option String := none
  pref_network : Option String := none
  pref_owners : Option String := none
  pref_country : Option String := none
  pref_categories : Option String := none
  pref_is_nsfw : Option String := none
  pref_launched : Option String := none
  pref_closed : Option String := none
  pref_replaced_by : Option String := none
  pref_website : Option String := none
  filtered_out_by_category : Option String := none
deriving DecidableEq, Repr

/-- The added columns of a baseline row after one pass of the enrichment
loop. -/
structure EnrichedRow where
  preferred_flag : String
  pref_id : String
  pref_name : String
  pref_alt_names : String
  pref_network : String
  pref_owners : String
  pref_country : String
  pref_categories : String
  pref_is_nsfw : String
  pref_launched : String
  pref_closed : String
  pref_replaced_by : String
  pref_website : String
  filtered_out_by_category : String
deriving DecidableEq, Repr

/-- Python `a or b or ""` for two optional string cells: the first non-empty
present cell, else the empty string. -/
def pyOr2 (a b : Option String) : String :=
  let x := a.getD ""
  if x ≠ "" then x else b.getD ""

/-- Insert a binding only when the key is not already present
(first-write-wins, as in `build_preferred_lookup`). -/
def insertIfAbsent {α β : Type} [DecidableEq α] (l : List (α × β)) (k : α) (v : β) :
    List (α × β) :=
  if (Merge.lookupAssocList l k).isSome then l else l ++ [(k, v)]

/-- The names contributed by one preferred row to the name-based index:
`name` plus every non-blank semicolon-separated entry of `alt_names`
(lines 234-242). -/
def rowNames (r : PreferredRow) : List String :=
  let name_main := r.name.getD ""
  let alt := r.alt_names.getD ""
  name_main ::
    (if alt ≠ "" then ((strSplitSemi alt).map strTrim).filter (fun nm => nm ≠ "") else [])

/-- The country component of a name-based key: the uppercased stripped
country cell, or `none` when that is empty (`country or None`). -/
def preferredCountryKey (r : PreferredRow) : Option String :=
  let c := strUpper (strTrim (r.country.getD ""))
  if c = "" then none else some c

/-- The `by_id` update for one preferred row (lines 225-230): a non-empty
stripped id is inserted unless already present. -/
def stepById (byId : List (String × PreferredRow)) (r : PreferredRow) :
    List (String × PreferredRow) :=
  let cid := strTrim (r.id.getD "")
  if cid ≠ "" then insertIfAbsent byId cid r else byId

/-- The `by_name_country` update for one name of one preferred row
(lines 245-253): a name whose strict normalization is empty is skipped,
otherwise the row is inserted under `(normalized name, country key)` unless
that key is already present. -/
def stepByNameOne (r : PreferredRow)
    (n : List ((String × Option String) × PreferredRow)) (nm : String) :
    List ((String × Option String) × PreferredRow) :=
  if normalize_name nm = "" then n
  else insertIfAbsent n (normalize_name nm, preferredCountryKey r) r

/-- The `by_name_country` updates for one preferred row (lines 244-253):
fold the per-name update over the row's names. -/
def stepByName (byNC : List ((String × Option String) × PreferredRow)) (r : PreferredRow) :
    List ((String × Option String) × PreferredRow) :=
  (rowNames r).foldl (stepByNameOne r) byNC

/-- The loop of `build_preferred_lookup` over the preferred rows, building
`by_id` and `by_name_country` together. -/
def buildLookups (rows : List PreferredRow) :
    List (String × PreferredRow) × List ((String × Option String) × PreferredRow) :=
  rows.foldl (fun s r => (stepById s.1 r, stepByName s.2 r)) ([], [])

/-- The baseline row's `xmltv_id` cell as read at line 311:
`(row.get("xmltv_id") or "").strip()`. -/
def baselineXid (row : BaselineRow) : String :=
  strTrim (row.xmltv_id.getD "")

/-- The display name used for name-based matching (line 319):
`row.get("display_name") or row.get("name") or ""`. -/
def baselineDisplayName (row : BaselineRow) : String :=
  pyOr2 row.display_name row.name

/-- The baseline country key (lines 318-321): uppercased stripped country,
or `none` when empty. -/
def baselineCountryKey (row : BaselineRow) : Option String :=
  let c := strUpper (strTrim (row.country.getD ""))
  if c = "" then none else some c

/-- The tiered matching of lines 310-331: id lookup when the id cell is
non-empty, else the `(normalized name, country)` key, else the
`(normalized name, None)` key. -/
def resolveRow (byId : List (String × PreferredRow))
    (byNC : List ((String × Option String) × PreferredRow))
    (row : BaselineRow) : Option PreferredRow :=
  match (if baselineXid row = "" then none
         else Merge.lookupAssocList byId (baselineXid row)) with
  | some r => some r
  | none =>
    match Merge.lookupAssocList byNC
        (normalize_name (baselineDisplayName row), baselineCountryKey row) with
    | some r => some r
    | none =>
      Merge.lookupAssocList byNC
        (normalize_name (baselineDisplayName row), (none : Option String))

/-- The category filter of lines 360-377, producing the new value of the
`filtered_out_by_category` cell.  `flag` is the `preferred_flag` cell at that
point and `catsCell` the `pref_categories` cell; when the latter is empty the
baseline's own `categories` cell is the fallback.  The cell is set to `"Y"`
only when the exclusion set and the category list are non-empty, some
category is excluded, and the row is not flagged preferred; otherwise it
keeps its prior value. -/
def categoryFilterValue (flag catsCell : String) (excl : List String)
    (row : BaselineRow) : String :=
  let cat_field := if catsCell ≠ "" then catsCell else row.categories.getD ""
  let cat_list := ((strSplitSemi cat_field).filter (fun c => strTrim c ≠ "")).map
    (fun c => strLower (strTrim c))
  if excl ≠ [] ∧ cat_list ≠ [] ∧ cat_list.any (fun c => excl.contains c) ∧ flag ≠ "Y"
  then "Y"
  else row.filtered_out_by_category.getD ""

/-- The body of the `for idx, row in baseline_df.iterrows()` loop
(lines 307-377) for one baseline row: resolve against the two lookups, fill
the preferred metadata cells (on no match they keep their prior values),
derive `preferred_flag` from the `Prefered`/`preferred` marker or from
membership of the matched id in `preferredIds`, and finally apply the
category filter. -/
def enrichRow (byId : List (String × PreferredRow))
    (byNC : List ((String × Option String) × PreferredRow))
    (preferredIds : List String) (excl : List String)
    (row : BaselineRow) : EnrichedRow :=
  match resolveRow byId byNC row with
  | some m =>
    let cid := strTrim (m.id.getD "")
    let marker := strTrim (pyOr2 m.Prefered m.preferred)
    let flag :=
      if marker ≠ "" then (if List.isPrefixOf ['Y'] (strUpper marker).data then "Y" else "")
      else (if preferredIds.contains cid then "Y" else "")
    let cats := m.categories.getD ""
    { preferred_flag := flag
      pref_id := cid
      pref_name := m.name.getD ""
      pref_alt_names := m.alt_names.getD ""
      pref_network := m.network.getD ""
      pref_owners := m.owners.getD ""
      pref_country := strUpper (strTrim (m.country.getD ""))
      pref_categories := cats
      pref_is_nsfw := m.is_nsfw.getD ""
      pref_launched := m.launched.getD ""
      pref_closed := m.closed.getD ""
      pref_replaced_by := m.replaced_by.getD ""
      pref_website := m.website.getD ""
      filtered_out_by_category := categoryFilterValue flag cats excl row }
  | none =>
    let flag := row.preferred_flag.getD ""
    let cats := row.pref_categories.getD ""
    { preferred_flag := flag
      pref_id := row.pref_id.getD ""
      pref_name := row.pref_name.getD ""
      pref_alt_names := row.pref_alt_names.getD ""
      pref_network := row.pref_network.getD ""
      pref_owners := row.pref_owners.getD ""
      pref_country := row.pref_country.getD ""
      pref_categories := cats
      pref_is_nsfw := row.pref_is_nsfw.getD ""
      pref_launched := row.pref_launched.getD ""
      pref_closed := row.pref_closed.getD ""
      pref_replaced_by := row.pref_replaced_by.getD ""
      pref_website := row.pref_website.getD ""
      filtered_out_by_category := categoryFilterValue flag cats excl row }

/-- The preferred table: presence of the `id` and `name` columns, and the
rows. -/
structure PreferredTable where
  hasId : Bool
  hasName : Bool
  rows : List PreferredRow
deriving Repr

/-- The baseline table: presence of the `xmltv_id` and `display_name`
columns, and the rows. -/
structure BaselineTable where
  hasXmltvId : Bool
  hasDisplayName : Bool
  rows : List BaselineRow
deriving Repr

/-- The exceptions `enrich_baseline_with_preferred` can raise. -/
inductive EnrichError where
  /-- ValueError: baseline CSV missing both xmltv_id and display_name. -/
  | baselineSchema
  /-- ValueError: preferred CSV missing the id or name column. -/
  | preferredSchema
  /-- ValueError raised by pandas when `bool()` is evaluated on a Series. -/
  | seriesTruthValueAmbiguous
deriving DecidableEq, Repr

/-- `build_preferred_lookup` (lines 205-257): fails when the preferred table
lacks the `id` or `name` column, else returns the two lookups. -/
def build_preferred_lookup (pt : PreferredTable) :
    Except EnrichError
      (List (String × PreferredRow) × List ((String × Option String) × PreferredRow)) :=
  if pt.hasId ∧ pt.hasName then Except.ok (buildLookups pt.rows)
  else Except.error EnrichError.preferredSchema

/-- Line 304, `preferred_ids_set = set((preferred_df.get("id") or []))`:
when the `id` column exists (always the case after `build_preferred_lookup`
succeeded), `preferred_df.get("id")` is a pandas Series and `or` evaluates
`bool()` on it, which pandas unconditionally raises on ("The truth value of
a Series is ambiguous"); only when the column is absent does `get` return
`None` and the expression yield the empty set. -/
def preferred_ids_set (pt : PreferredTable) : Except EnrichError (List String) :=
  if pt.hasId then Except.error EnrichError.seriesTruthValueAmbiguous
  else Except.ok []

/-- `enrich_baseline_with_preferred` (lines 260-384): baseline schema check,
lookup construction, `preferred_ids_set`, then the row loop. -/
def enrich_baseline_with_preferred (bt : BaselineTable) (pt : PreferredTable)
    (excl : List String) : Except EnrichError (List EnrichedRow) :=
  if ¬bt.hasXmltvId ∧ ¬bt.hasDisplayName then Except.error EnrichError.baselineSchema
  else
    match build_preferred_lookup pt with
    | Except.error e => Except.error e
    | Except.ok lookups =>
      match preferred_ids_set pt with
      | Except.error e => Except.error e
      | Except.ok ids =>
        Except.ok (bt.rows.map (enrichRow lookups.1 lookups.2 ids excl))

end Step2

/-! ### Sample rows used to instantiate the general theorems -/

/-- A preferred row with id `espn1`, name `ESPN` and no other cells. -/
def samplePrefA : Step2.PreferredRow := { id := some "espn1", name := some "ESPN" }

/-- A second, distinct preferred row. -/
def samplePrefB : Step2.PreferredRow := { id := some "other1", name := some "Other" }

/-- A preferred row whose only name normalizes to the empty string. -/
def samplePrefDash : Step2.PreferredRow := { name := some "-" }

/-- A baseline row carrying an xmltv_id and a display name. -/
def sampleBaselineId : Step2.BaselineRow :=
  { xmltv_id := some "espn1", display_name := some "ESPN" }

/-- A baseline row with no id, a display name and a country. -/
def sampleBaselineName : Step2.BaselineRow :=
  { display_name := some "News", country := some "us" }

/-- A baseline row already flagged preferred and carrying an excluded
category. -/
def sampleBaselinePref : Step2.BaselineRow :=
  { preferred_flag := some "Y", categories := some "music" }

/-! ### Helper lemmas about the merge engine -/

/-- A candidate with an empty loose-normalized name is appended to the
unmatched list and nothing else changes. -/
theorem mergeStep_empty (st : List (String × Merge.Candidate) × List Merge.DupeRecord × List Merge.Candidate)
    (c : Merge.Candidate) (h : Merge.normalize_name c.name = "") :
    Merge.mergeStep st c = (st.1, st.2.1, st.2.2 ++ [c]) := by
  simp only [Merge.mergeStep]
  rw [if_pos h]

/-- A candidate with a fresh key is inserted into the merged dict. -/
theorem mergeStep_new (st : List (String × Merge.Candidate) × List Merge.DupeRecord × List Merge.Candidate)
    (c : Merge.Candidate) (h : Merge.normalize_name c.name ≠ "")
    (hl : Merge.lookupAssocList st.1 (Merge.candidateKey c) = none) :
    Merge.mergeStep st c = (st.1 ++ [(Merge.candidateKey c, c)], st.2.1, st.2.2) := by
  simp only [Merge.mergeStep]
  rw [if_neg h, hl]

/-- A candidate whose key collides updates the merged dict according to the
tie-break and appends one collision record. -/
theorem mergeStep_dup (st : List (String × Merge.Candidate) × List Merge.DupeRecord × List Merge.Candidate)
    (c prev : Merge.Candidate) (h : Merge.normalize_name c.name ≠ "")
    (hl : Merge.lookupAssocList st.1 (Merge.candidateKey c) = some prev) :
    Merge.mergeStep st c =
      ((if Merge.wonByNew prev c then Merge.updateAssoc st.1 (Merge.candidateKey c) c else st.1),
       st.2.1 ++ [⟨Merge.candidateKey c,
                   (if Merge.wonByNew prev c then c else prev).name, c.name,
                   (if Merge.wonByNew prev c then c else prev).source, c.source,
                   (if Merge.wonByNew prev c then c else prev).xmltv_id, c.xmltv_id⟩],
       st.2.2) := by
  simp only [Merge.mergeStep]
  rw [if_neg h, hl]

/-- The unmatched component of the merge fold accumulates exactly the
candidates whose loose-normalized name is empty, in order. -/
theorem mergeFold_unmatched (cs : List Merge.Candidate)
    (st : List (String × Merge.Candidate) × List Merge.DupeRecord × List Merge.Candidate) :
    (cs.foldl Merge.mergeStep st).2.2 =
      st.2.2 ++ cs.filter (fun c => Merge.normalize_name c.name == "") := by
  induction cs generalizing st with
  | nil => simp
  | cons c cs ih =>
    rw [List.foldl_cons, ih]
    by_cases h : Merge.normalize_name c.name = ""
    · rw [mergeStep_empty st c h]
      simp [List.filter_cons, h]
    · have h2 : (Merge.mergeStep st c).2.2 = st.2.2 := by
        simp only [Merge.mergeStep]
        rw [if_neg h]
        cases Merge.lookupAssocList st.1 (Merge.candidateKey c) <;> rfl
      rw [h2]
      simp [List.filter_cons, h]

/-! ### Claim theorems for the merge engine -/

/-- C1 counterexample: two candidates share the identity key `cnn`; the
first carries an xmltv_id and the second does not, yet the winner selected
by `merge_candidates` is the id-less candidate, because the id-less one
comes from custom.channels.xml and the id-carrying provisional winner does
not.  This refutes the claim that the winner always carries the id. -/
theorem merge_id_winner_counterexample :
    Merge.candidateKey ⟨"", "cnn", "A", "Draft-Keep.csv"⟩
      = Merge.candidateKey ⟨"", "", "CNN", "custom.channels.xml"⟩
    ∧ (Merge.Candidate.mk "" "cnn" "A" "Draft-Keep.csv").xmltv_id ≠ ""
    ∧ (Merge.Candidate.mk "" "" "CNN" "custom.channels.xml").xmltv_id = ""
    ∧ (Merge.merge_candidates
        [⟨"", "cnn", "A", "Draft-Keep.csv"⟩, ⟨"", "", "CNN", "custom.channels.xml"⟩]).1
      = [⟨"", "", "CNN", "custom.channels.xml"⟩] := by
  decide

/-- C1 amended: when two ordered candidates share the identity key and
exactly one carries an xmltv_id, the merge winner carries the id, unless the
id-carrying candidate is the provisional (first-seen) one, from a source
other than custom.channels.xml, while the id-less candidate comes from
custom.channels.xml — that excluded case is the one source-priority
override. -/
theorem merge_id_winner_amended (a b : Merge.Candidate)
    (ha : Merge.normalize_name a.name ≠ "") (hb : Merge.normalize_name b.name ≠ "")
    (hkey : Merge.candidateKey a = Merge.candidateKey b)
    (hone : (a.xmltv_id = "" ∧ b.xmltv_id ≠ "") ∨ (a.xmltv_id ≠ "" ∧ b.xmltv_id = ""))
    (hexc : ¬(a.xmltv_id ≠ "" ∧ a.source ≠ "custom.channels.xml"
              ∧ b.source = "custom.channels.xml")) :
    ∃ w, (Merge.merge_candidates [a, b]).1 = [w] ∧ w.xmltv_id ≠ "" := by
  have s1 : Merge.mergeStep ([], [], []) a = ([(Merge.candidateKey a, a)], [], []) := by
    rw [mergeStep_new ([], [], []) a ha rfl]
    rfl
  have hlook : Merge.lookupAssocList [(Merge.candidateKey a, a)] (Merge.candidateKey b)
      = some a := by
    simp only [Merge.lookupAssocList]
    rw [if_pos hkey]
  rcases hone with ⟨hae, hbne⟩ | ⟨hane, hbe⟩
  · have hw : Merge.wonByNew a b = true := by
      simp [Merge.wonByNew, hae, hbne]
    refine ⟨b, ?_, hbne⟩
    simp only [Merge.merge_candidates, List.foldl]
    rw [s1, mergeStep_dup _ b a hb hlook, hw]
    simp [Merge.updateAssoc, if_pos hkey]
  · have hc1 : ¬(a.xmltv_id = "" ∧ b.xmltv_id ≠ "") := fun hcon => hane hcon.1
    have hc2 : ¬(a.source ≠ "custom.channels.xml" ∧ b.source = "custom.channels.xml") :=
      fun hcon => hexc ⟨hane, hcon.1, hcon.2⟩
    have hw : Merge.wonByNew a b = false := by
      simp only [Merge.wonByNew]
      rw [if_neg hc1, if_neg hc2]
    refine ⟨a, ?_, hane⟩
    simp only [Merge.merge_candidates, List.foldl]
    rw [s1, mergeStep_dup _ b a hb hlook, hw]
    simp

/-- C1 amended witness: with the id-less candidate seen first, the
id-carrying candidate wins as the amended claim states. -/
theorem merge_id_winner_amended_witness :
    ∃ w, (Merge.merge_candidates
            [⟨"", "", "CNN", "Draft-Keep.csv"⟩,
             ⟨"", "cnn", "CNN Intl", "matched_channels.csv"⟩]).1 = [w]
          ∧ w.xmltv_id ≠ "" :=
  merge_id_winner_amended _ _ (by decide) (by decide) (by decide)
    (Or.inl (by decide)) (by decide)

/-- C3: evaluating `merge_candidates` at a run where the newly seen
id-carrying candidate displaces the provisional winner.  The single
collision record repeats the new candidate in both the kept and dropped
roles; the displaced candidate (name `CNN`, source `Draft-Keep.csv`, empty
id) is captured nowhere. -/
theorem merge_collision_record_eval :
    (Merge.merge_candidates
       [⟨"", "", "CNN", "Draft-Keep.csv"⟩,
        ⟨"", "cnn", "CNN US", "matched_channels.csv"⟩]).2.1
      = [⟨"cnn", "CNN US", "CNN US", "matched_channels.csv", "matched_channels.csv",
          "cnn", "cnn"⟩] := by
  decide

/-- C4 counterexample: a candidate with a non-empty xmltv_id whose name
loose-normalizes to the empty string is routed to the unmatched list and
does not survive the merge, refuting the claim that only candidates with no
usable name and no id are routed to unmatched. -/
theorem merge_unmatched_id_counterexample :
    (Merge.Candidate.mk "" "x1" "hd" "src1").xmltv_id ≠ ""
    ∧ (Merge.merge_candidates [⟨"", "x1", "hd", "src1"⟩]).2.2 = [⟨"", "x1", "hd", "src1"⟩]
    ∧ (Merge.merge_candidates [⟨"", "x1", "hd", "src1"⟩]).1 = [] := by
  decide

/-- C4 amended: the identity key of a processed candidate is its own id
whenever the id is non-empty, and a candidate is routed to the unmatched
list exactly when its loose-normalized name is empty — regardless of any
xmltv_id it carries. -/
theorem merge_unmatched_iff_empty_norm :
    (∀ cs : List Merge.Candidate,
        (Merge.merge_candidates cs).2.2
          = cs.filter (fun c => Merge.normalize_name c.name == ""))
    ∧ (∀ c : Merge.Candidate, c.xmltv_id ≠ "" → Merge.candidateKey c = c.xmltv_id) := by
  constructor
  · intro cs
    simp only [Merge.merge_candidates]
    simpa using mergeFold_unmatched cs ([], [], [])
  · intro c h
    simp only [Merge.candidateKey]
    rw [if_pos h]

/-- C4 amended witness at concrete inputs: the id-carrying empty-norm
candidate lands in unmatched, and a named candidate with an id keys by the
id. -/
theorem merge_unmatched_iff_empty_norm_witness :
    (Merge.merge_candidates [⟨"", "x1", "hd", "src1"⟩]).2.2 = [⟨"", "x1", "hd", "src1"⟩]
    ∧ Merge.candidateKey ⟨"", "id9", "CNN", "src1"⟩ = "id9" :=
  ⟨by rw [merge_unmatched_iff_empty_norm.1]; decide,
   merge_unmatched_iff_empty_norm.2 ⟨"", "id9", "CNN", "src1"⟩ (by decide)⟩

/-- C6 counterexample: neither normalizer is idempotent.  The strict variant
maps `h.d` to `hd`, which a second pass maps to the empty string; the loose
variant maps `a_hd` to `a hd`, which a second pass maps to `a`. -/
theorem normalize_idempotent_counterexample :
    Step2.normalize_name (Step2.normalize_name "h.d") ≠ Step2.normalize_name "h.d"
    ∧ Merge.normalize_name (Merge.normalize_name "a_hd") ≠ Merge.normalize_name "a_hd" := by
  decide

/-- C6 amended: both normalizers are (pure) functions and are
case-insensitive on the cited example — both variants send `ESPN HD` and
`espn` to the same key — but neither is idempotent: the strict variant sends
`h.d` to `hd` and `hd` to the empty string, and the loose variant sends
`a_hd` to `a hd` and `a hd` to `a`. -/
theorem normalize_case_insensitive_not_idempotent :
    Step2.normalize_name "ESPN HD" = Step2.normalize_name "espn"
    ∧ Merge.normalize_name "ESPN HD" = Merge.normalize_name "espn"
    ∧ Step2.normalize_name "h.d" = "hd"
    ∧ Step2.normalize_name "hd" = ""
    ∧ Merge.normalize_name "a_hd" = "a hd"
    ∧ Merge.normalize_name "a hd" = "a" := by
  decide

/-- C7: `east` is one of the timeshift tokens listed in the source
(`TIMESHIFT_TAGS`), yet `normalize_name` does not remove it as a whole word:
the list is defined but never applied, so normalizing `cnn east` differs
from normalizing `cnn`. -/
theorem merge_timeshift_not_removed :
    "east" ∈ Merge.TIMESHIFT_TAGS
    ∧ Merge.normalize_name "cnn east" = "cnn east"
    ∧ Merge.normalize_name "cnn" = "cnn"
    ∧ Merge.normalize_name "cnn east" ≠ Merge.normalize_name "cnn" := by
  decide

/-- C9: an explicit xmltv_id and a loose-normalized name share one key
namespace.  A candidate whose non-empty xmltv_id equals the loose-normalized
name of a later id-less candidate shares its identity key with it, and
merging the two yields one surviving channel and one collision record. -/
theorem merge_key_namespace_shared (a b : Merge.Candidate)
    (haId : a.xmltv_id ≠ "") (hna : Merge.normalize_name a.name ≠ "")
    (hbId : b.xmltv_id = "") (hEq : Merge.normalize_name b.name = a.xmltv_id) :
    Merge.candidateKey a = Merge.candidateKey b
    ∧ (Merge.merge_candidates [a, b]).1.length = 1
    ∧ (Merge.merge_candidates [a, b]).2.1.length = 1 := by
  have hkey : Merge.candidateKey a = Merge.candidateKey b := by
    simp only [Merge.candidateKey]
    rw [if_pos haId, if_neg (fun hc => hc hbId), hEq]
  have hb : Merge.normalize_name b.name ≠ "" := by
    rw [hEq]; exact haId
  have s1 : Merge.mergeStep ([], [], []) a = ([(Merge.candidateKey a, a)], [], []) := by
    rw [mergeStep_new ([], [], []) a hna rfl]
    rfl
  have hlook : Merge.lookupAssocList [(Merge.candidateKey a, a)] (Merge.candidateKey b)
      = some a := by
    simp only [Merge.lookupAssocList]
    rw [if_pos hkey]
  refine ⟨hkey, ?_, ?_⟩
  · cases hw : Merge.wonByNew a b
    · simp only [Merge.merge_candidates, List.foldl]
      rw [s1, mergeStep_dup _ b a hb hlook, hw]
      simp
    · simp only [Merge.merge_candidates, List.foldl]
      rw [s1, mergeStep_dup _ b a hb hlook, hw]
      simp [Merge.updateAssoc, if_pos hkey]
  · simp only [Merge.merge_candidates, List.foldl]
    rw [s1, mergeStep_dup _ b a hb hlook]
    simp

/-- C9 witness: candidate with id `cnn` followed by an id-less candidate
named `CNN` collapse to one surviving channel with one collision record. -/
theorem merge_key_namespace_shared_witness :
    Merge.candidateKey ⟨"", "cnn", "News A", "s1"⟩
      = Merge.candidateKey ⟨"", "", "CNN", "s2"⟩
    ∧ (Merge.merge_candidates
        [⟨"", "cnn", "News A", "s1"⟩, ⟨"", "", "CNN", "s2"⟩]).1.length = 1
    ∧ (Merge.merge_candidates
        [⟨"", "cnn", "News A", "s1"⟩, ⟨"", "", "CNN", "s2"⟩]).2.1.length = 1 :=
  merge_key_namespace_shared _ _ (by decide) (by decide) (by decide) (by decide)

/-! ### Helper lemmas about the Step 2 enrichment -/

/-- With `preferred_flag` equal to `"Y"`, the category filter leaves the
`filtered_out_by_category` cell at its prior value. -/
theorem categoryFilterValue_preferred (catsCell : String) (excl : List String)
    (row : Step2.BaselineRow) :
    Step2.categoryFilterValue "Y" catsCell excl row
      = row.filtered_out_by_category.getD "" := by
  simp [Step2.categoryFilterValue]

/-- The second component of the `buildLookups` fold does not depend on the
`by_id` component of the state. -/
theorem buildLookups_snd (rows : List Step2.PreferredRow)
    (s : List (String × Step2.PreferredRow)
         × List ((String × Option String) × Step2.PreferredRow)) :
    (rows.foldl (fun s r => (Step2.stepById s.1 r, Step2.stepByName s.2 r)) s).2
      = rows.foldl (fun m r => Step2.stepByName m r) s.2 := by
  induction rows generalizing s with
  | nil => rfl
  | cons r rows ih =>
    simp only [List.foldl_cons]
    rw [ih]

/-- Membership after a first-write-wins insertion comes from the original
list or is the inserted key. -/
theorem insertIfAbsent_mem {α β : Type} [DecidableEq α] (l : List (α × β)) (k : α) (v : β)
    (p : α × β) (h : p ∈ Step2.insertIfAbsent l k v) : p ∈ l ∨ p.1 = k := by
  unfold Step2.insertIfAbsent at h
  split at h
  · exact Or.inl h
  · rcases List.mem_append.mp h with h | h
    · exact Or.inl h
    · have := List.mem_singleton.mp h
      right
      rw [this]

/-- Keys inserted by the per-name update are non-empty normalized names. -/
theorem stepByNameOne_mem (r : Step2.PreferredRow)
    (n : List ((String × Option String) × Step2.PreferredRow)) (nm : String)
    (p : (String × Option String) × Step2.PreferredRow)
    (h : p ∈ Step2.stepByNameOne r n nm) : p ∈ n ∨ p.1.1 ≠ "" := by
  unfold Step2.stepByNameOne at h
  by_cases hn : Step2.normalize_name nm = ""
  · rw [if_pos hn] at h
    exact Or.inl h
  · rw [if_neg hn] at h
    rcases insertIfAbsent_mem _ _ _ _ h with h2 | h2
    · exact Or.inl h2
    · right
      rw [h2]
      exact hn

/-- Keys present after folding the per-name update over any name list come
from the initial index or are non-empty normalized names. -/
theorem foldl_stepByNameOne_mem (r : Step2.PreferredRow) (names : List String) :
    ∀ (n : List ((String × Option String) × Step2.PreferredRow))
      (p : (String × Option String) × Step2.PreferredRow),
      p ∈ names.foldl (Step2.stepByNameOne r) n → p ∈ n ∨ p.1.1 ≠ "" := by
  induction names with
  | nil => intro n p h; exact Or.inl h
  | cons nm names ih =>
    intro n p h
    simp only [List.foldl_cons] at h
    rcases ih _ _ h with h' | h'
    · exact stepByNameOne_mem r n nm p h'
    · exact Or.inr h'

/-- A row all of whose names normalize to the empty string leaves the
name-based index unchanged. -/
theorem stepByName_skip (n : List ((String × Option String) × Step2.PreferredRow))
    (r : Step2.PreferredRow)
    (h : ∀ nm ∈ Step2.rowNames r, Step2.normalize_name nm = "") :
    Step2.stepByName n r = n := by
  unfold Step2.stepByName
  have aux : ∀ (names : List String) (m : List ((String × Option String) × Step2.PreferredRow)),
      (∀ nm ∈ names, Step2.normalize_name nm = "") →
      names.foldl (Step2.stepByNameOne r) m = m := by
    intro names
    induction names with
    | nil => intro m _; rfl
    | cons nm names ih =>
      intro m hall
      simp only [List.foldl_cons]
      have h1 : Step2.stepByNameOne r m nm = m := by
        unfold Step2.stepByNameOne
        rw [if_pos (hall nm (List.mem_cons_self nm names))]
      rw [h1]
      exact ih m (fun x hx => hall x (List.mem_cons_of_mem nm hx))
  exact aux _ n h

/-- The nonempty-key invariant is preserved along the fold over preferred
rows. -/
theorem byNC_fold_keys (rows : List Step2.PreferredRow) :
    ∀ (n : List ((String × Option String) × Step2.PreferredRow)),
      (∀ p : (String × Option String) × Step2.PreferredRow, p ∈ n → p.1.1 ≠ "") →
      ∀ p : (String × Option String) × Step2.PreferredRow,
        p ∈ rows.foldl (fun m r => Step2.stepByName m r) n → p.1.1 ≠ "" := by
  induction rows with
  | nil => intro n hn p h; exact hn p h
  | cons r rows ih =>
    intro n hn p h
    simp only [List.foldl_cons] at h
    refine ih (Step2.stepByName n r) ?_ p h
    intro q hq
    rcases foldl_stepByNameOne_mem r (Step2.rowNames r) n q hq with h' | h'
    · exact hn q h'
    · exact h'

/-! ### Claim theorems for the Step 2 enrichment -/

/-- C2: for every pair of lookups, preferred-id set, exclusion set and
baseline row, if the enriched record's `preferred_flag` is `"Y"` then the
category filter leaves `filtered_out_by_category` at the row's prior value —
it is never set by the filter. -/
theorem enrich_preferred_never_filtered
    (byId : List (String × Step2.PreferredRow))
    (byNC : List ((String × Option String) × Step2.PreferredRow))
    (ids : List String) (excl : List String) (row : Step2.BaselineRow)
    (h : (Step2.enrichRow byId byNC ids excl row).preferred_flag = "Y") :
    (Step2.enrichRow byId byNC ids excl row).filtered_out_by_category
      = row.filtered_out_by_category.getD "" := by
  cases hm : Step2.resolveRow byId byNC row with
  | none =>
    simp only [Step2.enrichRow, hm] at h ⊢
    rw [h]
    exact categoryFilterValue_preferred _ _ _
  | some m =>
    simp only [Step2.enrichRow, hm] at h ⊢
    rw [h]
    exact categoryFilterValue_preferred _ _ _

/-- C2 witness: a baseline row flagged `Y` carrying the excluded category
`music` keeps its (empty) prior `filtered_out_by_category` value. -/
theorem enrich_preferred_never_filtered_witness :
    (Step2.enrichRow [] [] [] ["music"] sampleBaselinePref).preferred_flag = "Y"
    ∧ (Step2.enrichRow [] [] [] ["music"] sampleBaselinePref).filtered_out_by_category
        = sampleBaselinePref.filtered_out_by_category.getD "" :=
  ⟨by decide, enrich_preferred_never_filtered [] [] [] ["music"] sampleBaselinePref (by decide)⟩

/-- C5: the resolver respects the tier order with no fallthrough after a
hit.  First, a baseline row whose non-empty stripped id is present in
`by_id` resolves to the `by_id` record, whatever `by_name_country` contains.
Second, when the id tier fails, a hit on the `(name, country)` key is
returned before the `(name, None)` key is ever consulted. -/
theorem resolver_tier_order :
    (∀ (byId : List (String × Step2.PreferredRow))
       (byNC : List ((String × Option String) × Step2.PreferredRow))
       (row : Step2.BaselineRow) (r : Step2.PreferredRow),
        Step2.baselineXid row ≠ "" →
        Merge.lookupAssocList byId (Step2.baselineXid row) = some r →
        Step2.resolveRow byId byNC row = some r)
    ∧ (∀ (byId : List (String × Step2.PreferredRow))
         (byNC : List ((String × Option String) × Step2.PreferredRow))
         (row : Step2.BaselineRow) (r : Step2.PreferredRow),
        (Step2.baselineXid row = ""
          ∨ Merge.lookupAssocList byId (Step2.baselineXid row) = none) →
        Merge.lookupAssocList byNC
          (Step2.normalize_name (Step2.baselineDisplayName row),
           Step2.baselineCountryKey row) = some r →
        Step2.resolveRow byId byNC row = some r) := by
  constructor
  · intro byId byNC row r hx hl
    simp only [Step2.resolveRow]
    rw [if_neg hx, hl]
  · intro byId byNC row r hx hl
    have hnone : (if Step2.baselineXid row = "" then none
        else Merge.lookupAssocList byId (Step2.baselineXid row))
        = (none : Option Step2.PreferredRow) := by
      rcases hx with h | h
      · rw [if_pos h]
      · rw [h]
        exact ite_self none
    simp only [Step2.resolveRow]
    rw [hnone, hl]

/-- C5 witness: an id hit wins although the display name would match a
different name-based entry, and a `(name, country)` hit wins over a
conflicting `(name, None)` entry. -/
theorem resolver_tier_order_witness :
    Step2.resolveRow [("espn1", samplePrefA)]
        [((Step2.normalize_name "ESPN", none), samplePrefB)] sampleBaselineId
      = some samplePrefA
    ∧ Step2.resolveRow []
        [((Step2.normalize_name "News", some "US"), samplePrefA),
         ((Step2.normalize_name "News", none), samplePrefB)] sampleBaselineName
      = some samplePrefA :=
  ⟨resolver_tier_order.1 _ _ _ _ (by decide) (by decide),
   resolver_tier_order.2 _ _ _ _ (Or.inl (by decide)) (by decide)⟩

/-- C8: evaluating the batch at a structurally valid input — baseline with
an `xmltv_id` column and one row, preferred with `id` and `name` columns and
one row — does not return an enriched table: line 304 evaluates `bool()` on
the preferred `id` Series and pandas raises, so the batch aborts. -/
theorem enrich_batch_raises_eval :
    Step2.enrich_baseline_with_preferred
        ⟨true, true, [sampleBaselineId]⟩ ⟨true, true, [samplePrefA]⟩ []
      = Except.error Step2.EnrichError.seriesTruthValueAmbiguous := by
  rfl

/-- C10: every key of `by_name_country` has a non-empty normalized-name
component, and a preferred row all of whose names normalize to the empty
string contributes no name-based entry at all. -/
theorem byNameCountry_keys_nonempty :
    (∀ (rows : List Step2.PreferredRow)
       (p : (String × Option String) × Step2.PreferredRow),
        p ∈ (Step2.buildLookups rows).2 → p.1.1 ≠ "")
    ∧ (∀ (r : Step2.PreferredRow) (rows : List Step2.PreferredRow),
        (∀ nm ∈ Step2.rowNames r, Step2.normalize_name nm = "") →
        (Step2.buildLookups (r :: rows)).2 = (Step2.buildLookups rows).2) := by
  constructor
  · intro rows p hmem
    simp only [Step2.buildLookups] at hmem
    rw [buildLookups_snd] at hmem
    exact byNC_fold_keys rows [] (fun q hq => absurd hq (List.not_mem_nil q)) p hmem
  · intro r rows h
    simp only [Step2.buildLookups, List.foldl_cons]
    rw [buildLookups_snd, buildLookups_snd]
    show rows.foldl (fun m r => Step2.stepByName m r) (Step2.stepByName [] r)
        = rows.foldl (fun m r => Step2.stepByName m r) []
    rw [stepByName_skip [] r h]

/-- C10 witness: the concrete index over `samplePrefA` stores the non-empty
key `espn`, and a row whose only name is `-` contributes no name-based
entry. -/
theorem byNameCountry_keys_nonempty_witness :
    (("espn", (none : Option String)), samplePrefA).1.1 ≠ ""
    ∧ (Step2.buildLookups [samplePrefDash, samplePrefA]).2
        = (Step2.buildLookups [samplePrefA]).2 :=
  ⟨byNameCountry_keys_nonempty.1 [samplePrefA] (("espn", none), samplePrefA) (by decide),
   byNameCountry_keys_nonempty.2 samplePrefDash [samplePrefA] (by decide)⟩
